import Mathlib

/-!
Verification of the blogicum blog application (Django) against its
natural-language specification.

The data model is taken from `blog/migrations/0001_initial.py` (the schema:
field lists and on-delete policies) together with `blog/admin.py` and
`blog/forms.py` for the `Comment` model's fields.  The view behaviour is
translated from `blog/views.py`.  Timestamps are modelled as integers,
primary keys as naturals, and the database as lists of rows.
-/

namespace Blogicum

/-- Identity entity managed by the framework's auth subsystem: profile pages
look users up by `username`, and view-level comparisons compare user rows. -/
structure User where
  id : Nat
  username : String
deriving Repr, DecidableEq

/-- Row of `blog_category` from migration 0001: id, `is_published`
(default true), `created_at`, title, description, unique slug. -/
structure Category where
  id : Nat
  isPublished : Bool
  createdAt : Int
  title : String
  description : String
  slug : String
deriving Repr, DecidableEq

/-- Row of `blog_location` from migration 0001: id, `is_published`,
`created_at`, name. -/
structure Location where
  id : Nat
  isPublished : Bool
  createdAt : Int
  name : String
deriving Repr, DecidableEq

/-- Row of `blog_post` from migration 0001: id, `is_published`, `created_at`,
title, text, `pub_date`, author (FK to user, CASCADE), category (nullable FK,
SET_NULL), location (nullable FK, SET_NULL). -/
structure Post where
  id : Nat
  isPublished : Bool
  createdAt : Int
  title : String
  text : String
  pubDate : Int
  author : Nat
  category : Option Nat
  location : Option Nat
deriving Repr, DecidableEq

/-- Comment row.  The model file is expressed through `admin.py`
(`pk, text, post, created_at, author`), `forms.py` (`text` is the only form
field) and `views.py` (author and post are set by the view). -/
structure Comment where
  id : Nat
  text : String
  post : Nat
  author : Nat
  createdAt : Int
deriving Repr, DecidableEq

/-- The database: one list of rows per table. -/
structure DB where
  users : List User
  categories : List Category
  locations : List Location
  posts : List Post
  comments : List Comment
deriving Repr, DecidableEq

/-- A requesting user: `some uid` for an authenticated user with primary key
`uid`, `none` for the anonymous user. -/
abbrev Requester := Option Nat

/-- Follow the `post.category` foreign key: the category row referenced by
the post, if the reference is set and the row exists. -/
def relatedCategory (db : DB) (p : Post) : Option Category :=
  p.category.bind (fun cid => db.categories.find? (fun c => c.id == cid))

/-- The SQL condition `category__is_published=True` of
`get_posts_queryset` (views.py lines 24-29): the join succeeds and the joined
category is published.  A null (or dangling) category reference fails it. -/
def categoryJoinPublished (db : DB) (p : Post) : Bool :=
  match relatedCategory db p with
  | some c => c.isPublished
  | none => false

/-- The filter applied when `published=True` in `get_posts_queryset`:
`pub_date__lte=timezone.now(), is_published=True, category__is_published=True`. -/
def isPubliclyVisible (db : DB) (now : Int) (p : Post) : Bool :=
  decide (p.pubDate ≤ now) && p.isPublished && categoryJoinPublished db p

/-- The rows selected by `get_posts_queryset(published=True)`. -/
def publishedPosts (db : DB) (now : Int) : List Post :=
  db.posts.filter (isPubliclyVisible db now)

/-- Number of comments attached to post `p`: the `Count('comments')`
annotation of `get_posts_queryset` (views.py lines 30-33). -/
def commentCount (db : DB) (p : Post) : Nat :=
  (db.comments.filter (fun c => c.post == p.id)).length

/-- A post together with its `comment_count` annotation. -/
structure AnnotatedPost where
  post : Post
  commentCount : Nat
deriving Repr, DecidableEq

/-- Ordering used by `order_by('-pub_date')`: publication timestamp
descending. -/
def pubDateDesc (a b : AnnotatedPost) : Prop :=
  b.post.pubDate ≤ a.post.pubDate

instance : DecidableRel pubDateDesc :=
  fun a b => inferInstanceAs (Decidable (b.post.pubDate ≤ a.post.pubDate))

instance : IsTotal AnnotatedPost pubDateDesc :=
  ⟨fun a b => Int.le_total b.post.pubDate a.post.pubDate⟩

instance : IsTrans AnnotatedPost pubDateDesc :=
  ⟨fun _ _ _ hab hbc => le_trans hbc hab⟩

/-- The `with_comments_count=True` branch of `get_posts_queryset`
(views.py lines 30-33): annotate every row with its comment count and order
by publication timestamp descending. -/
def annotateAndOrder (db : DB) (l : List Post) : List AnnotatedPost :=
  List.insertionSort pubDateDesc (l.map (fun p => ⟨p, commentCount db p⟩))

/-- Number of posts per page (views.py line 15), used as `paginate_by` on
every list view. -/
def NUM_POSTS_ON_PAGE : Nat := 10

/-- Page number `n` (1-based) of a paginated object list, as sliced by the
framework paginator: elements `(n-1)*per_page` up to `n*per_page`. -/
def getPage (l : List AnnotatedPost) (n : Nat) : List AnnotatedPost :=
  (l.drop ((n - 1) * NUM_POSTS_ON_PAGE)).take NUM_POSTS_ON_PAGE

/-- Queryset of `HomePageListView` (views.py lines 47-55):
`get_posts_queryset(published=True, with_comments_count=True)`. -/
def homeQueryset (db : DB) (now : Int) : List AnnotatedPost :=
  annotateAndOrder db (publishedPosts db now)

/-- The `get_object_or_404(Category, is_published=True, slug=...)` lookup of
`CategoryPostsListView.get_category_object` (views.py lines 62-67): `none`
means a 404 response. -/
def get_category_object (db : DB) (slug : String) : Option Category :=
  db.categories.find? (fun c => c.isPublished && c.slug == slug)

/-- `CategoryPostsListView` (views.py lines 58-80): 404 unless a published
category with the given slug exists, else the public queryset restricted to
that category, paired with the category for the template context. -/
def categoryPostsView (db : DB) (now : Int) (slug : String) :
    Option (Category × List AnnotatedPost) :=
  match get_category_object db slug with
  | none => none
  | some cat =>
    some (cat, (annotateAndOrder db (publishedPosts db now)).filter
      (fun a => a.post.category == some cat.id))

/-- The `get_object_or_404(User, username=...)` lookup of
`UserListView.get_user_object` (views.py lines 96-99). -/
def get_user_object (db : DB) (username : String) : Option User :=
  db.users.find? (fun u => u.username == username)

/-- `UserListView` (views.py lines 92-114): 404 unless the user exists; the
queryset applies the public filter exactly when the requester is not the
profile's owner (`published=(self.request.user != self.get_user_object())`),
then restricts to posts authored by that user. -/
def profileView (db : DB) (now : Int) (requester : Requester)
    (username : String) : Option (User × List AnnotatedPost) :=
  match get_user_object db username with
  | none => none
  | some u =>
    let base := if requester == some u.id then db.posts else publishedPosts db now
    some (u, (annotateAndOrder db base).filter (fun a => a.post.author == u.id))

/-- Outcome of `PostDetailView.get_object` (views.py lines 149-158).
`attributeError` is the unhandled Python `AttributeError` raised by
`post.category.is_published` when `post.category` is `None`. -/
inductive DetailResult where
  | page (p : Post)
  | notFound
  | attributeError
deriving Repr, DecidableEq

/-- `PostDetailView.get_object`: look the post up by primary key over the
unfiltered queryset (`published=False`), then, unless the requester is the
author, raise 404 when `pub_date > now` or `not is_published` or
`not category.is_published`, evaluated left to right with Python
short-circuiting; the last disjunct dereferences `post.category`. -/
def postDetailGetObject (db : DB) (now : Int) (requester : Requester)
    (postId : Nat) : DetailResult :=
  match db.posts.find? (fun p => p.id == postId) with
  | none => .notFound
  | some post =>
    if requester == some post.author then .page post
    else if decide (now < post.pubDate) then .notFound
    else if !post.isPublished then .notFound
    else
      match relatedCategory db post with
      | none => .attributeError
      | some c => if !c.isPublished then .notFound else .page post

/-- Response part of a mutating view's outcome.  `redirect pk` is the
`redirect('blog:post_detail', pk)` issued by
`OnlyAuthorMixin.handle_no_permission`; `loginRedirect` is the
`LoginRequiredMixin` redirect for anonymous users; `success` is a completed
form submission. -/
inductive Resp where
  | success
  | notFound
  | redirect (postDetailPk : Nat)
  | loginRedirect
deriving Repr, DecidableEq

/-- Fields editable through `PostForm` (forms.py): title, text, pub_date,
location, category (the author and `is_published` are never form fields). -/
structure PostFormData where
  title : String
  text : String
  pubDate : Int
  location : Option Nat
  category : Option Nat
deriving Repr, DecidableEq

/-- Apply a valid `PostForm` to an existing post: only the form's fields
change. -/
def applyPostForm (p : Post) (f : PostFormData) : Post :=
  { p with title := f.title, text := f.text, pubDate := f.pubDate,
           location := f.location, category := f.category }

/-- `PostUpdateView` (OnlyAuthorMixin + UpdateView): 404 when the post is
missing; a redirect to the object's post-detail page, with the database
untouched, when the requester is not the author; otherwise the form is
applied. -/
def postUpdateView (db : DB) (requester : Requester) (postId : Nat)
    (f : PostFormData) : DB × Resp :=
  match db.posts.find? (fun p => p.id == postId) with
  | none => (db, .notFound)
  | some post =>
    if requester == some post.author then
      ({ db with posts := db.posts.map (fun q =>
          if q.id == postId then applyPostForm q f else q) },
       .success)
    else (db, .redirect post.id)

/-- `PostDeleteView` (OnlyAuthorMixin + DeleteView): as for update, but a
successful request deletes the post and, by the `Comment.post` cascade, its
comments. -/
def postDeleteView (db : DB) (requester : Requester) (postId : Nat) :
    DB × Resp :=
  match db.posts.find? (fun p => p.id == postId) with
  | none => (db, .notFound)
  | some post =>
    if requester == some post.author then
      ({ db with posts := db.posts.filter (fun p => p.id != postId),
                 comments := db.comments.filter (fun c => c.post != postId) },
       .success)
    else (db, .redirect post.id)

/-- `CommentCreateView` (views.py lines 224-248): anonymous users are sent to
login; the post is fetched with `get_object_or_404(Post, pk=post_id)`; on
success `form_valid` stores a comment whose author is the requester and whose
post is the fetched post.  `newId` is the fresh primary key assigned by the
database. -/
def commentCreateView (db : DB) (now : Int) (requester : Requester)
    (postId : Nat) (text : String) (newId : Nat) : DB × Resp :=
  match requester with
  | none => (db, .loginRedirect)
  | some uid =>
    match db.posts.find? (fun p => p.id == postId) with
    | none => (db, .notFound)
    | some post =>
      ({ db with comments := db.comments ++
          [{ id := newId, text := text, post := post.id, author := uid,
             createdAt := now }] },
       .success)

/-- `CommentUpdateView` (OnlyAuthorMixin + CommentMixin + UpdateView): the
form's only field is `text`.  Note `handle_no_permission` redirects to
`blog:post_detail` with `self.get_object().pk` — the comment's own primary
key. -/
def commentUpdateView (db : DB) (requester : Requester) (commentId : Nat)
    (text : String) : DB × Resp :=
  match db.comments.find? (fun c => c.id == commentId) with
  | none => (db, .notFound)
  | some c =>
    if requester == some c.author then
      ({ db with comments := db.comments.map (fun d =>
          if d.id == commentId then { d with text := text } else d) },
       .success)
    else (db, .redirect c.id)

/-- `CommentDeleteView` (OnlyAuthorMixin + CommentMixin + DeleteView). -/
def commentDeleteView (db : DB) (requester : Requester) (commentId : Nat) :
    DB × Resp :=
  match db.comments.find? (fun c => c.id == commentId) with
  | none => (db, .notFound)
  | some c =>
    if requester == some c.author then
      ({ db with comments := db.comments.filter (fun d => d.id != commentId) },
       .success)
    else (db, .redirect c.id)

/-- Deleting a category row: `Post.category` has `on_delete=SET_NULL`
(migration 0001, line 54), so referencing posts survive with a null
category. -/
def deleteCategory (db : DB) (cid : Nat) : DB :=
  { db with
    categories := db.categories.filter (fun c => c.id != cid),
    posts := db.posts.map
      (fun p => if p.category == some cid then { p with category := none }
                else p) }

/-- Deleting a location row: `Post.location` has `on_delete=SET_NULL`
(migration 0001, line 55). -/
def deleteLocation (db : DB) (lid : Nat) : DB :=
  { db with
    locations := db.locations.filter (fun l => l.id != lid),
    posts := db.posts.map
      (fun p => if p.location == some lid then { p with location := none }
                else p) }

/-- Deleting a user row: `Post.author` has `on_delete=CASCADE`
(migration 0001, line 53), so the user's posts are deleted, and with each
deleted post its comments (the `Comment.post` cascade); comments authored by
the deleted user are removed as well. -/
def deleteUser (db : DB) (uid : Nat) : DB :=
  let deletedPostIds := (db.posts.filter (fun p => p.author == uid)).map (·.id)
  { db with
    users := db.users.filter (fun u => u.id != uid),
    posts := db.posts.filter (fun p => p.author != uid),
    comments := db.comments.filter
      (fun c => c.author != uid && !(deletedPostIds.contains c.post)) }

/-! Concrete databases used to exhibit counterexamples and to instantiate the
theorems below on closed inputs. -/

def c1Post : Post := ⟨1, true, 0, "t", "body", 0, 1, none, none⟩

def c1DB : DB := ⟨[⟨1, "alice"⟩], [], [], [c1Post], []⟩

def w1Cat : Category := ⟨1, true, 0, "News", "d", "news"⟩

def w1Post : Post := ⟨1, true, 0, "t", "body", 3, 1, some 1, none⟩

def w1DB : DB := ⟨[⟨1, "alice"⟩], [w1Cat], [], [w1Post], []⟩

def w2Post : Post := ⟨1, false, 0, "t", "x", 0, 1, none, none⟩

def w2DB : DB := ⟨[⟨1, "a"⟩, ⟨2, "b"⟩], [], [], [w2Post], []⟩

def w3Post : Post := ⟨1, true, 0, "t", "x", 0, 1, none, none⟩

def w3Comment : Comment := ⟨7, "c", 1, 1, 0⟩

def w3DB : DB := ⟨[⟨1, "a"⟩, ⟨2, "b"⟩], [], [], [w3Post], [w3Comment]⟩

def w3Form : PostFormData := ⟨"t2", "x2", 1, none, none⟩

def w4Post : Post := ⟨3, true, 0, "t", "x", 0, 1, none, none⟩

def w4DB : DB := ⟨[⟨1, "a"⟩, ⟨2, "b"⟩], [], [], [w4Post], []⟩

def w5User : User := ⟨1, "alice"⟩

def w5Cat : Category := ⟨1, true, 0, "News", "d", "news"⟩

def w5Pub : Post := ⟨1, true, 0, "t", "x", 0, 1, some 1, none⟩

def w5Hidden : Post := ⟨2, false, 0, "t2", "x2", 0, 1, some 1, none⟩

def w5DB : DB := ⟨[w5User, ⟨2, "bob"⟩], [w5Cat], [], [w5Pub, w5Hidden], []⟩

def w5OwnList : List AnnotatedPost :=
  ((profileView w5DB 5 (some 1) "alice").getD (⟨0, ""⟩, [])).2

def w5OtherList : List AnnotatedPost :=
  ((profileView w5DB 5 (some 2) "alice").getD (⟨0, ""⟩, [])).2

def w6Post : Post := ⟨1, true, 0, "t", "x", 0, 1, some 1, some 2⟩

def w6DB : DB :=
  ⟨[⟨1, "a"⟩], [⟨1, true, 0, "c", "d", "s"⟩], [⟨2, true, 0, "loc"⟩], [w6Post], []⟩

def w7Post1 : Post := ⟨1, true, 0, "t", "x", 0, 1, none, none⟩

def w7Post2 : Post := ⟨2, true, 0, "t", "x", 0, 2, none, none⟩

def w7DB : DB := ⟨[⟨1, "a"⟩, ⟨2, "b"⟩], [], [], [w7Post1, w7Post2], []⟩

def c8Post : Post := ⟨1, true, 0, "t", "x", 0, 1, none, none⟩

def c8DB : DB := ⟨[⟨1, "a"⟩, ⟨2, "b"⟩], [], [], [c8Post], []⟩

def w9Cat : Category := ⟨1, true, 0, "News", "d", "c"⟩

def w9DB : DB := ⟨[], [w9Cat, ⟨2, false, 0, "Hid", "d", "h"⟩], [], [], []⟩

def w9List : List AnnotatedPost :=
  ((categoryPostsView w9DB 0 "c").getD (⟨0, false, 0, "", "", ""⟩, [])).2

def w10Cat : Category := ⟨1, true, 0, "News", "d", "c"⟩

def w10PostA : Post := ⟨1, true, 0, "t", "x", 3, 1, some 1, none⟩

def w10PostB : Post := ⟨2, true, 0, "t2", "x2", 5, 1, some 1, none⟩

def w10DB : DB :=
  ⟨[⟨1, "a"⟩], [w10Cat], [], [w10PostA, w10PostB], [⟨1, "c", 1, 1, 0⟩]⟩

def w10List : List AnnotatedPost :=
  ((categoryPostsView w10DB 9 "c").getD (⟨0, false, 0, "", "", ""⟩, [])).2

def w10ProfList : List AnnotatedPost :=
  ((profileView w10DB 9 none "a").getD (⟨0, ""⟩, [])).2

/-! Helper lemmas shared by the claim theorems. -/

theorem mem_annotateAndOrder (db : DB) (m : List Post) (p : Post) :
    (∃ a ∈ annotateAndOrder db m, a.post = p) ↔ p ∈ m := by
  constructor
  · rintro ⟨a, ha, rfl⟩
    have hm : a ∈ m.map (fun q => (⟨q, commentCount db q⟩ : AnnotatedPost)) :=
      (List.perm_insertionSort pubDateDesc _).mem_iff.mp ha
    obtain ⟨q, hq, hqa⟩ := List.mem_map.mp hm
    rw [← hqa]
    exact hq
  · intro hp
    refine ⟨⟨p, commentCount db p⟩, ?_, rfl⟩
    exact (List.perm_insertionSort pubDateDesc _).mem_iff.mpr
      (List.mem_map_of_mem _ hp)

theorem commentCount_annotateAndOrder (db : DB) (m : List Post) :
    ∀ a ∈ annotateAndOrder db m, a.commentCount = commentCount db a.post := by
  intro a ha
  have hm : a ∈ m.map (fun q => (⟨q, commentCount db q⟩ : AnnotatedPost)) :=
    (List.perm_insertionSort pubDateDesc _).mem_iff.mp ha
  obtain ⟨q, _, hqa⟩ := List.mem_map.mp hm
  rw [← hqa]

theorem sorted_annotateAndOrder (db : DB) (m : List Post) :
    List.Sorted pubDateDesc (annotateAndOrder db m) :=
  List.sorted_insertionSort pubDateDesc _

theorem mem_annotateAndOrder_filter (db : DB) (m : List Post) (g : Post → Bool)
    (p : Post) :
    (∃ a ∈ (annotateAndOrder db m).filter (fun a => g a.post), a.post = p) ↔
      p ∈ m ∧ g p = true := by
  constructor
  · rintro ⟨a, ha, rfl⟩
    have h := List.mem_filter.mp ha
    exact ⟨(mem_annotateAndOrder db m a.post).mp ⟨a, h.1, rfl⟩, h.2⟩
  · rintro ⟨hm, hg⟩
    obtain ⟨a, ha, hap⟩ := (mem_annotateAndOrder db m p).mpr hm
    exact ⟨a, List.mem_filter.mpr ⟨ha, by simpa [hap] using hg⟩, hap⟩

theorem find?_category_id (db : DB) (c : Category)
    (hids : (db.categories.map Category.id).Nodup) (hc : c ∈ db.categories) :
    db.categories.find? (fun d => d.id == c.id) = some c := by
  cases hf : db.categories.find? (fun d => d.id == c.id) with
  | none =>
    have := List.find?_eq_none.mp hf c hc
    simp at this
  | some d =>
    have hd1 : d ∈ db.categories := List.mem_of_find?_eq_some hf
    have hd2 : d.id = c.id := by simpa using List.find?_some hf
    rw [List.inj_on_of_nodup_map hids hd1 hc hd2]

theorem categoryJoinPublished_iff (db : DB) (p : Post)
    (hids : (db.categories.map Category.id).Nodup) :
    categoryJoinPublished db p = true ↔
      ∃ c ∈ db.categories, p.category = some c.id ∧ c.isPublished = true := by
  rcases hcat : p.category with _ | cid
  · simp [categoryJoinPublished, relatedCategory, hcat]
  · have hrel : relatedCategory db p =
        db.categories.find? (fun c => c.id == cid) := by
      unfold relatedCategory
      rw [hcat]
      rfl
    cases hf : db.categories.find? (fun c => c.id == cid) with
    | none =>
      rw [hf] at hrel
      constructor
      · intro h
        rw [categoryJoinPublished, hrel] at h
        simp at h
      · rintro ⟨c, hcmem, hcid, -⟩
        have := List.find?_eq_none.mp hf c hcmem
        simp [Option.some.inj hcid] at this
    | some d =>
      rw [hf] at hrel
      constructor
      · intro h
        rw [categoryJoinPublished, hrel] at h
        refine ⟨d, List.mem_of_find?_eq_some hf, ?_, h⟩
        have hdc : d.id = cid := by simpa using List.find?_some hf
        rw [hdc]
      · rintro ⟨c, hcmem, hcid, hcpub⟩
        have hcid2 : cid = c.id := Option.some.inj hcid
        subst hcid2
        have hfc := find?_category_id db c hids hcmem
        rw [hfc] at hf
        have hcd : c = d := Option.some.inj hf
        rw [categoryJoinPublished, hrel, ← hcd]
        exact hcpub

theorem isPubliclyVisible_iff (db : DB) (now : Int) (p : Post) :
    isPubliclyVisible db now p = true ↔
      (p.pubDate ≤ now ∧ p.isPublished = true ∧
       categoryJoinPublished db p = true) := by
  simp [isPubliclyVisible, and_assoc]

theorem mem_publishedPosts (db : DB) (now : Int) (p : Post) :
    p ∈ publishedPosts db now ↔
      p ∈ db.posts ∧ isPubliclyVisible db now p = true := by
  simp [publishedPosts]

/-- C4: a successful comment creation by an authenticated user on post id
`postId` stores a comment whose author is the requester and whose post field
is `postId`; when no such post exists the view responds 404 and the database
is unchanged. -/
theorem C4_comment_creation (db : DB) (now : Int) (uid postId newId : Nat)
    (text : String) :
    (∀ post, db.posts.find? (fun p => p.id == postId) = some post →
       ∃ c : Comment,
         commentCreateView db now (some uid) postId text newId =
           ({ db with comments := db.comments ++ [c] }, .success) ∧
         c.author = uid ∧ c.post = postId)
  ∧ (db.posts.find? (fun p => p.id == postId) = none →
       commentCreateView db now (some uid) postId text newId =
         (db, .notFound)) := by
  constructor
  · intro post h
    refine ⟨⟨newId, text, post.id, uid, now⟩, ?_, rfl, ?_⟩
    · unfold commentCreateView
      rw [h]
    · simpa using List.find?_some h
  · intro h
    unfold commentCreateView
    rw [h]

theorem C4_witness :
    (∃ c : Comment,
       commentCreateView w4DB 5 (some 2) 3 "hi" 9 =
         ({ w4DB with comments := w4DB.comments ++ [c] }, .success) ∧
       c.author = 2 ∧ c.post = 3)
  ∧ commentCreateView w4DB 5 (some 2) 8 "hi" 9 = (w4DB, .notFound) :=
  ⟨(C4_comment_creation w4DB 5 2 3 9 "hi").1 w4Post (by decide),
   (C4_comment_creation w4DB 5 2 8 9 "hi").2 (by decide)⟩

/-- C6: deleting a Category (resp. Location) row keeps every post, nulls the
deleted reference on posts that held it, and leaves every other field of
every post unchanged (on-delete SET_NULL from migration 0001). -/
theorem C6_set_null_on_delete (db : DB) (cid lid : Nat) :
    (∀ p ∈ db.posts, ∃ q ∈ (deleteCategory db cid).posts,
        q.id = p.id ∧ q.author = p.author ∧ q.title = p.title ∧
        q.text = p.text ∧ q.pubDate = p.pubDate ∧
        q.isPublished = p.isPublished ∧ q.createdAt = p.createdAt ∧
        q.location = p.location ∧
        q.category = (if p.category = some cid then none else p.category))
  ∧ (∀ p ∈ db.posts, ∃ q ∈ (deleteLocation db lid).posts,
        q.id = p.id ∧ q.author = p.author ∧ q.title = p.title ∧
        q.text = p.text ∧ q.pubDate = p.pubDate ∧
        q.isPublished = p.isPublished ∧ q.createdAt = p.createdAt ∧
        q.category = p.category ∧
        q.location = (if p.location = some lid then none else p.location)) := by
  constructor
  · intro p hp
    refine ⟨_, List.mem_map_of_mem _ hp, ?_⟩
    by_cases h : p.category = some cid
    · simp [h]
    · simp [h]
  · intro p hp
    refine ⟨_, List.mem_map_of_mem _ hp, ?_⟩
    by_cases h : p.location = some lid
    · simp [h]
    · simp [h]

theorem C6_witness :
    (∃ q ∈ (deleteCategory w6DB 1).posts,
       q.id = w6Post.id ∧ q.category = none)
  ∧ (∃ q ∈ (deleteLocation w6DB 2).posts,
       q.id = w6Post.id ∧ q.location = none) := by
  obtain ⟨q, hq, h1, -, -, -, -, -, -, -, h9⟩ :=
    (C6_set_null_on_delete w6DB 1 2).1 w6Post (by decide)
  obtain ⟨q2, hq2, h1b, -, -, -, -, -, -, -, h9b⟩ :=
    (C6_set_null_on_delete w6DB 1 2).2 w6Post (by decide)
  refine ⟨⟨q, hq, h1, ?_⟩, ⟨q2, hq2, h1b, ?_⟩⟩
  · rw [h9]; decide
  · rw [h9b]; decide

/-- C7: deleting a user removes every post referencing that user as author
(on-delete CASCADE from migration 0001), and keeps every post whose author is
a different user. -/
theorem C7_author_cascade (db : DB) (uid : Nat) :
    (∀ p ∈ (deleteUser db uid).posts, p.author ≠ uid)
  ∧ (∀ p ∈ db.posts, p.author ≠ uid → p ∈ (deleteUser db uid).posts) := by
  constructor
  · intro p hp
    simp only [deleteUser] at hp
    have h := (List.mem_filter.mp hp).2
    simpa using h
  · intro p hp h
    simp only [deleteUser]
    exact List.mem_filter.mpr ⟨hp, by simpa using h⟩

theorem C7_witness :
    w7Post2 ∈ (deleteUser w7DB 1).posts ∧ w7Post2.author ≠ 1 := by
  have h := (C7_author_cascade w7DB 1).2 w7Post2 (by decide) (by decide)
  exact ⟨h, (C7_author_cascade w7DB 1).1 w7Post2 h⟩

/-- C8: the claim says the post-detail operation is total for posts with a
null category; the code instead evaluates `post.category.is_published` on
`None` for a non-author requester once the first two visibility disjuncts are
false, raising an unhandled AttributeError rather than a page or a 404. -/
theorem C8_null_category_crash :
    postDetailGetObject c8DB 0 (some 2) 1 = .attributeError ∧
    (some 2 : Requester) ≠ some c8Post.author ∧
    c8Post.category = none ∧ c8Post.isPublished = true ∧
    c8Post.pubDate ≤ 0 := by decide

/-- C9: the category listing responds 404 exactly when no published category
with the requested slug exists; a rendered page always belongs to an
existing, published category with that slug. -/
theorem C9_category_404 (db : DB) (now : Int) (slug : String) :
    (categoryPostsView db now slug = none ↔
       ∀ c ∈ db.categories, ¬(c.slug = slug ∧ c.isPublished = true))
  ∧ (∀ cat l, categoryPostsView db now slug = some (cat, l) →
       cat ∈ db.categories ∧ cat.slug = slug ∧ cat.isPublished = true) := by
  constructor
  · constructor
    · intro h c hc hcs
      unfold categoryPostsView at h
      cases hf : get_category_object db slug with
      | none =>
        have := List.find?_eq_none.mp hf c hc
        simp [hcs.1, hcs.2] at this
      | some cat => rw [hf] at h; cases h
    · intro h
      unfold categoryPostsView
      cases hf : get_category_object db slug with
      | none => rfl
      | some cat =>
        have hmem := List.mem_of_find?_eq_some hf
        have hpred := List.find?_some hf
        simp only [Bool.and_eq_true, beq_iff_eq] at hpred
        exact absurd ⟨hpred.2, hpred.1⟩ (h cat hmem)
  · intro cat l h
    unfold categoryPostsView at h
    cases hf : get_category_object db slug with
    | none => rw [hf] at h; cases h
    | some cat0 =>
      rw [hf] at h
      have he := Option.some.inj h
      have hcat : cat0 = cat := congrArg Prod.fst he
      subst hcat
      have hmem := List.mem_of_find?_eq_some hf
      have hpred := List.find?_some hf
      simp only [Bool.and_eq_true, beq_iff_eq] at hpred
      exact ⟨hmem, hpred.2, hpred.1⟩

theorem C9_witness :
    categoryPostsView w9DB 0 "h" = none ∧ w9Cat ∈ w9DB.categories := by
  refine ⟨(C9_category_404 w9DB 0 "h").1.mpr ?_, ?_⟩
  · decide
  · exact ((C9_category_404 w9DB 0 "c").2 w9Cat w9List (by decide)).1

/-- C2: for a post looked up by id, a requester other than the author gets a
404 whenever a visibility condition fails (future publication timestamp,
unpublished post, or unpublished category), while the author is always shown
the post regardless of visibility. -/
theorem C2_post_detail_visibility (db : DB) (now : Int) (requester : Requester)
    (postId : Nat) (post : Post)
    (hfind : db.posts.find? (fun p => p.id == postId) = some post) :
    (requester = some post.author →
       postDetailGetObject db now requester postId = .page post)
  ∧ (requester ≠ some post.author →
       (now < post.pubDate ∨ post.isPublished = false ∨
         (∃ c, relatedCategory db post = some c ∧ c.isPublished = false)) →
       postDetailGetObject db now requester postId = .notFound) := by
  constructor
  · intro h
    unfold postDetailGetObject
    rw [hfind]
    simp [h]
  · intro hne hcond
    unfold postDetailGetObject
    rw [hfind]
    rcases hcond with hlt | hpub | ⟨c, hc, hcp⟩
    · simp [hne, hlt]
    · simp [hne, hpub]
    · simp [hne, hc, hcp]

theorem C2_witness :
    postDetailGetObject w2DB 0 (some 1) 1 = .page w2Post ∧
    postDetailGetObject w2DB 0 (some 2) 1 = .notFound := by
  refine ⟨(C2_post_detail_visibility w2DB 0 (some 1) 1 w2Post (by decide)).1
    rfl, ?_⟩
  exact (C2_post_detail_visibility w2DB 0 (some 2) 1 w2Post (by decide)).2
    (by decide) (Or.inr (Or.inl (by decide)))

/-- C3: the edit and delete views for posts and comments are author-gated: a
requester other than the author is redirected to a post-detail page and the
database stays untouched, and a success response implies the requester is the
object's author. -/
theorem C3_only_author (db : DB) (requester : Requester) :
    (∀ postId post f, db.posts.find? (fun p => p.id == postId) = some post →
       requester ≠ some post.author →
       postUpdateView db requester postId f = (db, .redirect post.id))
  ∧ (∀ postId post, db.posts.find? (fun p => p.id == postId) = some post →
       requester ≠ some post.author →
       postDeleteView db requester postId = (db, .redirect post.id))
  ∧ (∀ commentId c text,
       db.comments.find? (fun d => d.id == commentId) = some c →
       requester ≠ some c.author →
       commentUpdateView db requester commentId text = (db, .redirect c.id))
  ∧ (∀ commentId c, db.comments.find? (fun d => d.id == commentId) = some c →
       requester ≠ some c.author →
       commentDeleteView db requester commentId = (db, .redirect c.id))
  ∧ (∀ postId f out, postUpdateView db requester postId f = (out, .success) →
       ∃ post, db.posts.find? (fun p => p.id == postId) = some post ∧
         requester = some post.author)
  ∧ (∀ postId out, postDeleteView db requester postId = (out, .success) →
       ∃ post, db.posts.find? (fun p => p.id == postId) = some post ∧
         requester = some post.author)
  ∧ (∀ commentId text out,
       commentUpdateView db requester commentId text = (out, .success) →
       ∃ c, db.comments.find? (fun d => d.id == commentId) = some c ∧
         requester = some c.author)
  ∧ (∀ commentId out,
       commentDeleteView db requester commentId = (out, .success) →
       ∃ c, db.comments.find? (fun d => d.id == commentId) = some c ∧
         requester = some c.author) := by
  refine ⟨?_, ?_, ?_, ?_, ?_, ?_, ?_, ?_⟩
  · intro postId post f hf hne
    unfold postUpdateView
    rw [hf]
    simp [hne]
  · intro postId post hf hne
    unfold postDeleteView
    rw [hf]
    simp [hne]
  · intro commentId c text hf hne
    unfold commentUpdateView
    rw [hf]
    simp [hne]
  · intro commentId c hf hne
    unfold commentDeleteView
    rw [hf]
    simp [hne]
  · intro postId f out h
    unfold postUpdateView at h
    cases hf : db.posts.find? (fun p => p.id == postId) with
    | none => rw [hf] at h; simp at h
    | some post =>
      rw [hf] at h
      by_cases ha : requester = some post.author
      · exact ⟨post, rfl, ha⟩
      · simp [ha] at h
  · intro postId out h
    unfold postDeleteView at h
    cases hf : db.posts.find? (fun p => p.id == postId) with
    | none => rw [hf] at h; simp at h
    | some post =>
      rw [hf] at h
      by_cases ha : requester = some post.author
      · exact ⟨post, rfl, ha⟩
      · simp [ha] at h
  · intro commentId text out h
    unfold commentUpdateView at h
    cases hf : db.comments.find? (fun d => d.id == commentId) with
    | none => rw [hf] at h; simp at h
    | some c =>
      rw [hf] at h
      by_cases ha : requester = some c.author
      · exact ⟨c, rfl, ha⟩
      · simp [ha] at h
  · intro commentId out h
    unfold commentDeleteView at h
    cases hf : db.comments.find? (fun d => d.id == commentId) with
    | none => rw [hf] at h; simp at h
    | some c =>
      rw [hf] at h
      by_cases ha : requester = some c.author
      · exact ⟨c, rfl, ha⟩
      · simp [ha] at h

theorem C3_witness :
    postUpdateView w3DB (some 2) 1 w3Form = (w3DB, .redirect 1) ∧
    postDeleteView w3DB (some 2) 1 = (w3DB, .redirect 1) ∧
    commentUpdateView w3DB (some 2) 7 "z" = (w3DB, .redirect 7) ∧
    commentDeleteView w3DB (some 2) 7 = (w3DB, .redirect 7) := by
  have h := C3_only_author w3DB (some 2)
  exact ⟨h.1 1 w3Post w3Form (by decide) (by decide),
    h.2.1 1 w3Post (by decide) (by decide),
    h.2.2.1 7 w3Comment "z" (by decide) (by decide),
    h.2.2.2.1 7 w3Comment (by decide) (by decide)⟩

/-- C5: the profile listing shows all of the owner's posts (with no
visibility filter) when the requester is the owner, and exactly the owner's
publicly visible posts when the requester is anyone else. -/
theorem C5_profile_listing (db : DB) (now : Int) (requester : Requester)
    (username : String) (u : User) (l : List AnnotatedPost) (p : Post)
    (hv : profileView db now requester username = some (u, l)) :
    (requester = some u.id →
       ((∃ a ∈ l, a.post = p) ↔ p ∈ db.posts ∧ p.author = u.id))
  ∧ (requester ≠ some u.id →
       ((∃ a ∈ l, a.post = p) ↔
          p ∈ db.posts ∧ p.author = u.id ∧
          isPubliclyVisible db now p = true)) := by
  unfold profileView at hv
  cases hu : get_user_object db username with
  | none => rw [hu] at hv; cases hv
  | some u0 =>
    rw [hu] at hv
    have he := Option.some.inj hv
    have h1 : u0 = u := congrArg Prod.fst he
    subst h1
    have h2 : l = (annotateAndOrder db
        (if requester == some u0.id then db.posts
         else publishedPosts db now)).filter
        (fun a => a.post.author == u0.id) := (congrArg Prod.snd he).symm
    subst h2
    constructor
    · intro hr
      have hb : (requester == some u0.id) = true := by simp [hr]
      rw [if_pos hb]
      refine (mem_annotateAndOrder_filter db db.posts
        (fun q => q.author == u0.id) p).trans ?_
      simp
    · intro hr
      have hb : ¬(requester == some u0.id) = true := by simp [hr]
      rw [if_neg hb]
      refine (mem_annotateAndOrder_filter db (publishedPosts db now)
        (fun q => q.author == u0.id) p).trans ?_
      simp only [mem_publishedPosts, beq_iff_eq]
      tauto

theorem C5_witness :
    (∃ a ∈ w5OwnList, a.post = w5Hidden) ∧
    ¬(∃ a ∈ w5OtherList, a.post = w5Hidden) := by
  have h1 := (C5_profile_listing w5DB 5 (some 1) "alice" w5User w5OwnList
    w5Hidden (by decide)).1 rfl
  have h2 := (C5_profile_listing w5DB 5 (some 2) "alice" w5User w5OtherList
    w5Hidden (by decide)).2 (by decide)
  exact ⟨h1.mpr (by decide), fun hx => absurd (h2.mp hx) (by decide)⟩

/-- C1 fails as stated: this post satisfies the claim's conditions (past
publication timestamp, published flag true, no category at all) yet is absent
from the home listing, because the `category__is_published=True` filter
excludes posts with a null category reference. -/
theorem C1_counterexample :
    c1Post ∈ c1DB.posts ∧ c1Post.pubDate ≤ 0 ∧ c1Post.isPublished = true ∧
    c1Post.category = none ∧
    ¬∃ a ∈ homeQueryset c1DB 0, a.post = c1Post := by decide

/-- C1 (amended): a post appears in a public listing — the home page, a
rendered category page, or another user's profile page — iff its publication
timestamp is not after the current time, its published flag is true, and it
references an existing category whose published flag is true; a post with no
category (or an unpublished one) never appears.  Stated for databases whose
category ids are pairwise distinct. -/
theorem C1_public_listing_amended (db : DB) (now : Int) (p : Post)
    (hids : (db.categories.map Category.id).Nodup) :
    ((∃ a ∈ homeQueryset db now, a.post = p) ↔
       (p ∈ db.posts ∧ p.pubDate ≤ now ∧ p.isPublished = true ∧
        ∃ c ∈ db.categories, p.category = some c.id ∧ c.isPublished = true))
  ∧ (∀ slug cat l, categoryPostsView db now slug = some (cat, l) →
       ((∃ a ∈ l, a.post = p) ↔
          (p ∈ db.posts ∧ p.pubDate ≤ now ∧ p.isPublished = true ∧
           p.category = some cat.id)))
  ∧ (∀ requester username u l, requester ≠ some u.id →
       profileView db now requester username = some (u, l) →
       ((∃ a ∈ l, a.post = p) ↔
          (p ∈ db.posts ∧ p.author = u.id ∧ p.pubDate ≤ now ∧
           p.isPublished = true ∧
           ∃ c ∈ db.categories, p.category = some c.id ∧
             c.isPublished = true))) := by
  have hvis : ∀ q : Post, q ∈ publishedPosts db now ↔
      (q ∈ db.posts ∧ q.pubDate ≤ now ∧ q.isPublished = true ∧
       ∃ c ∈ db.categories, q.category = some c.id ∧ c.isPublished = true) := by
    intro q
    rw [mem_publishedPosts, isPubliclyVisible_iff,
      categoryJoinPublished_iff db q hids]
  refine ⟨?_, ?_, ?_⟩
  · exact (mem_annotateAndOrder db (publishedPosts db now) p).trans (hvis p)
  · intro slug cat l hcv
    unfold categoryPostsView at hcv
    cases hf : get_category_object db slug with
    | none => rw [hf] at hcv; cases hcv
    | some cat0 =>
      rw [hf] at hcv
      have he := Option.some.inj hcv
      have h1 : cat0 = cat := congrArg Prod.fst he
      subst h1
      have h2 : l = (annotateAndOrder db (publishedPosts db now)).filter
          (fun a => a.post.category == some cat0.id) :=
        (congrArg Prod.snd he).symm
      subst h2
      have hcatmem : cat0 ∈ db.categories := List.mem_of_find?_eq_some hf
      have hcatpub : cat0.isPublished = true := by
        have h := List.find?_some hf
        simp only [Bool.and_eq_true] at h
        exact h.1
      refine (mem_annotateAndOrder_filter db (publishedPosts db now)
        (fun q => q.category == some cat0.id) p).trans ?_
      rw [hvis p]
      constructor
      · rintro ⟨⟨hp, hpd, hpub, -⟩, hcc⟩
        exact ⟨hp, hpd, hpub, by simpa using hcc⟩
      · rintro ⟨hp, hpd, hpub, hcc⟩
        exact ⟨⟨hp, hpd, hpub, cat0, hcatmem, hcc, hcatpub⟩,
          by simpa using hcc⟩
  · intro requester username u l hne hpv
    unfold profileView at hpv
    cases hu : get_user_object db username with
    | none => rw [hu] at hpv; cases hpv
    | some u0 =>
      rw [hu] at hpv
      have he := Option.some.inj hpv
      have h1 : u0 = u := congrArg Prod.fst he
      subst h1
      have h2 : l = (annotateAndOrder db
          (if requester == some u0.id then db.posts
           else publishedPosts db now)).filter
          (fun a => a.post.author == u0.id) := (congrArg Prod.snd he).symm
      subst h2
      have hb : ¬(requester == some u0.id) = true := by simp [hne]
      rw [if_neg hb]
      refine (mem_annotateAndOrder_filter db (publishedPosts db now)
        (fun q => q.author == u0.id) p).trans ?_
      rw [hvis p]
      constructor
      · rintro ⟨⟨hp, hpd, hpub, hcc⟩, hau⟩
        exact ⟨hp, by simpa using hau, hpd, hpub, hcc⟩
      · rintro ⟨hp, hau, hpd, hpub, hcc⟩
        exact ⟨⟨hp, hpd, hpub, hcc⟩, by simpa using hau⟩

theorem C1_witness : ∃ a ∈ homeQueryset w1DB 10, a.post = w1Post :=
  ((C1_public_listing_amended w1DB 10 w1Post (by decide)).1).mpr (by decide)

/-- C10: every listing page (home, category, profile) orders its posts by
publication timestamp descending, annotates each entry with the count of
comments on its post, and serves at most 10 posts per page; the page size
constant is 10. -/
theorem C10_listing_pages (db : DB) (now : Int) :
    (List.Sorted pubDateDesc (homeQueryset db now)
     ∧ (∀ a ∈ homeQueryset db now, a.commentCount = commentCount db a.post)
     ∧ ∀ n, (getPage (homeQueryset db now) n).length ≤ 10)
  ∧ (∀ slug cat l, categoryPostsView db now slug = some (cat, l) →
       List.Sorted pubDateDesc l
       ∧ (∀ a ∈ l, a.commentCount = commentCount db a.post)
       ∧ ∀ n, (getPage l n).length ≤ 10)
  ∧ (∀ requester username u l,
       profileView db now requester username = some (u, l) →
       List.Sorted pubDateDesc l
       ∧ (∀ a ∈ l, a.commentCount = commentCount db a.post)
       ∧ ∀ n, (getPage l n).length ≤ 10)
  ∧ NUM_POSTS_ON_PAGE = 10 := by
  refine ⟨⟨sorted_annotateAndOrder db _, commentCount_annotateAndOrder db _,
    fun n => List.length_take_le _ _⟩, ?_, ?_, rfl⟩
  · intro slug cat l hcv
    unfold categoryPostsView at hcv
    cases hf : get_category_object db slug with
    | none => rw [hf] at hcv; cases hcv
    | some cat0 =>
      rw [hf] at hcv
      have he := Option.some.inj hcv
      have h2 : l = (annotateAndOrder db (publishedPosts db now)).filter
          (fun a => a.post.category == some cat0.id) :=
        (congrArg Prod.snd he).symm
      subst h2
      exact ⟨List.Pairwise.sublist (List.filter_sublist _)
          (sorted_annotateAndOrder db _),
        fun a ha => commentCount_annotateAndOrder db _ a
          (List.mem_of_mem_filter ha),
        fun n => List.length_take_le _ _⟩
  · intro requester username u l hpv
    unfold profileView at hpv
    cases hu : get_user_object db username with
    | none => rw [hu] at hpv; cases hpv
    | some u0 =>
      rw [hu] at hpv
      have he := Option.some.inj hpv
      have h2 : l = (annotateAndOrder db
          (if requester == some u0.id then db.posts
           else publishedPosts db now)).filter
          (fun a => a.post.author == u0.id) := (congrArg Prod.snd he).symm
      subst h2
      exact ⟨List.Pairwise.sublist (List.filter_sublist _)
          (sorted_annotateAndOrder db _),
        fun a ha => commentCount_annotateAndOrder db _ a
          (List.mem_of_mem_filter ha),
        fun n => List.length_take_le _ _⟩

theorem C10_witness :
    (List.Sorted pubDateDesc w10List ∧ (getPage w10List 1).length ≤ 10) ∧
    (List.Sorted pubDateDesc w10ProfList ∧
     (getPage w10ProfList 2).length ≤ 10) := by
  have hc := (C10_listing_pages w10DB 9).2.1 "c" w10Cat w10List (by decide)
  have hp := (C10_listing_pages w10DB 9).2.2.1 none "a" ⟨1, "a"⟩ w10ProfList
    (by decide)
  exact ⟨⟨hc.1, hc.2.2 1⟩, ⟨hp.1, hp.2.2 2⟩⟩

end Blogicum
